import Mathlib

/-!
Verification development for the yacht-listing extraction pipeline of
`docs/list-yacht.js` (Yacht Listing Import System v2.0).

The JavaScript source is shallowly embedded here.  Conventions used
throughout:

* Strings are processed as `List Char`; the regular expressions of the
  source are translated, pattern by pattern, into explicit scanners that
  reproduce the leftmost-match / greedy / lazy behaviour of the original
  pattern (each scanner carries the regex it embeds in a comment).
* JavaScript numbers that arise in the pipeline are exact decimal
  fractions.  They are modelled by `JsNum` (an integer numerator over a
  power-of-ten denominator, kept in lowest decimal terms), so that all
  arithmetic is over `Int`/`Nat` and evaluates inside the kernel.
  Floating point artefacts do not change any of the modelled outcomes on
  the value ranges the code handles, and `NaN` only occurs in the source
  where a parse failed, which is modelled by `Option`.
* `null`/`undefined`-able values are `Option`; JavaScript truthiness of
  numbers and strings is modelled by explicit helper functions.
* The browser document model (DOM queries) is an external dependency;
  an element or a query result is passed to the embedded functions as an
  explicit structure holding exactly the attributes the source reads.
* The platform URL constructor is an external dependency, passed as an
  explicit `UrlApi` record (`parse` models `new URL(base)`, `resolve`
  models `new URL(rel, base).href`, `none` modelling a thrown exception).
-/

/- ===================== basic JavaScript string helpers ===================== -/

/-- ASCII lower-casing of one character; models `String.prototype.toLowerCase`
on the character ranges the pipeline manipulates. -/
def lowerChar (c : Char) : Char :=
  if 65 ≤ c.toNat && c.toNat ≤ 90 then Char.ofNat (c.toNat + 32) else c

/-- Lower-case a whole string (ASCII). -/
def lowerStr (s : String) : String := String.mk (s.data.map lowerChar)

/-- JavaScript `\s` on the character set occurring in the pipeline
(space, tab, newline, carriage return, vertical tab, form feed). -/
def isJsWs (c : Char) : Bool :=
  c == ' ' || c == '\t' || c == '\n' || c == '\r' || c == '\x0b' || c == '\x0c'

/-- JavaScript `\w` (word character) for the `\b` boundary assertion. -/
def isWordChar (c : Char) : Bool := c.isAlphanum || c == '_'

/-- ASCII letter, the class `[A-Za-z]`. -/
def isAsciiLetter (c : Char) : Bool := c.isAlpha

/-- Does the list start with the given pattern (case sensitive)? -/
def startsList : List Char → List Char → Bool
  | [], _ => true
  | _ :: _, [] => false
  | p :: ps, c :: cs => p == c && startsList ps cs

/-- Does the list start with the given pattern, ASCII case-insensitively
(for regexes carrying the `i` flag)? -/
def ciStarts : List Char → List Char → Bool
  | [], _ => true
  | _ :: _, [] => false
  | p :: ps, c :: cs => lowerChar p == lowerChar c && ciStarts ps cs

/-- Does the haystack contain the pattern as a contiguous run
(`String.prototype.includes`)? -/
def containsSub (pat : List Char) : List Char → Bool
  | [] => startsList pat []
  | c :: cs => startsList pat (c :: cs) || containsSub pat cs

/-- `hay.includes(pat)` on strings. -/
def strContains (hay pat : String) : Bool := containsSub pat.data hay.data

/-- `s.startsWith(pat)` on strings. -/
def strStarts (s pat : String) : Bool := startsList pat.data s.data

/-- Trim surrounding whitespace, models `String.prototype.trim`. -/
def trimList (l : List Char) : List Char :=
  ((l.dropWhile isJsWs).reverse.dropWhile isJsWs).reverse

/-- `s.trim()` on strings. -/
def jsTrim (s : String) : String := String.mk (trimList s.data)

/-- Collapse every whitespace run to a single space; models
`replace(/\s+/g, ' ')`.  The boolean records whether the previous
character was whitespace. -/
def collapseWsAux : Bool → List Char → List Char
  | _, [] => []
  | prevWs, c :: rest =>
    if isJsWs c then
      if prevWs then collapseWsAux true rest else ' ' :: collapseWsAux true rest
    else c :: collapseWsAux false rest

/-- The `cleanText` helper of the source: collapse whitespace runs, map the
remaining control characters to spaces (a no-op after the collapse, kept for
faithfulness), and trim. -/
def cleanText (s : String) : String :=
  let step1 := collapseWsAux false s.data
  let step2 := step1.map (fun c => if c == '\n' || c == '\r' || c == '\t' then ' ' else c)
  String.mk (trimList step2)

/- ===================== exact decimal numbers (JsNum) ===================== -/

/-- An exact decimal fraction `num / den` with `den` a power of ten, kept in
lowest decimal terms by construction, modelling the JavaScript numbers the
pipeline produces (`parseFloat` results and integer literals).  Because the
representation is canonical for every constructed value, structural equality
coincides with value equality. -/
structure JsNum where
  num : Int
  den : Nat
deriving DecidableEq, Repr

/-- Remove common factors of ten from numerator and denominator. -/
def stripZeros : Int → Nat → Nat → JsNum
  | n, d, 0 => ⟨n, d⟩
  | n, d, fuel + 1 =>
    if d % 10 == 0 && n % 10 == 0 then stripZeros (n / 10) (d / 10) fuel else ⟨n, d⟩

/-- The decimal value `n / 10 ^ k`, canonicalised. -/
def JsNum.mk10 (n : Int) (k : Nat) : JsNum := stripZeros n (10 ^ k) k

/-- A natural number as a `JsNum`. -/
def JsNum.fromNat (n : Nat) : JsNum := ⟨n, 1⟩

/-- Is the value zero (JavaScript falsiness of a number)? -/
def JsNum.isZero (a : JsNum) : Bool := a.num == 0

/-- Is the value strictly positive? -/
def JsNum.isPos (a : JsNum) : Bool := 0 < a.num

/-- Value comparison `n ≤ a` against a natural bound (denominators are
positive by construction). -/
def JsNum.geNat (a : JsNum) (n : Nat) : Bool := ((n : Int) * (a.den : Int)) ≤ a.num

/-- Value comparison `a ≤ n` against a natural bound. -/
def JsNum.leNat (a : JsNum) (n : Nat) : Bool := a.num ≤ ((n : Int) * (a.den : Int))

/-- Decimal digits to a natural number. -/
def digitsToNat : List Char → Nat :=
  List.foldl (fun acc c => acc * 10 + (c.toNat - 48)) 0

/-- Digit-parsing core of `parseFloatJs`. -/
def parseFloatCore (sgn : Int) (cs : List Char) : Option JsNum :=
  let ip := cs.takeWhile Char.isDigit
  let rest := cs.drop ip.length
  let fp := match rest with
    | '.' :: t => t.takeWhile Char.isDigit
    | _ => []
  if ip.isEmpty && fp.isEmpty then none
  else some (JsNum.mk10 (sgn * ((digitsToNat ip * 10 ^ fp.length + digitsToNat fp : Nat) : Int)) fp.length)

/-- The platform `parseFloat` on the value space the pipeline feeds it:
skip leading whitespace, optional sign, integer digits, optional fraction
digits; `none` models `NaN` (no digits at all).  Exponent notation never
occurs in the pipeline's inputs and is not modelled. -/
def parseFloatJs (s : String) : Option JsNum :=
  let cs := s.data.dropWhile isJsWs
  match cs with
  | '-' :: t => parseFloatCore (-1) t
  | '+' :: t => parseFloatCore 1 t
  | _ => parseFloatCore 1 cs

/- ===================== price parsing (PRICE_PATTERNS, extractPrice) ===================== -/

/-- The currencies of `PRICE_PATTERNS`. -/
inductive Currency
  | USD
  | EUR
  | GBP
deriving DecidableEq, Repr

/-- The class `[\d,]`. -/
def isNumComma (c : Char) : Bool := c.isDigit || c == ','

/-- The class `[\d,.\s]` of the EUR patterns. -/
def isEuroClass (c : Char) : Bool := c.isDigit || c == ',' || c == '.' || isJsWs c

def kwUsd : List Char := ("usd").data
def kwDollar : List Char := ("dollar").data
def kwEur : List Char := ("eur").data
def kwGbp : List Char := ("gbp").data
def kwPrice : List Char := ("price").data
def kwAsking : List Char := ("asking").data

/-- Scanner for `/\$\s*([\d,]+(?:\.\d{2})?)\s*(?:USD|usd)?/`: at the first
`$` followed (after whitespace) by a nonempty `[\d,]` run, capture the run,
extended by `.dd` when exactly two digits follow a dot; the trailing
optional groups never constrain the match. -/
def matchDollarUsd : List Char → Option (List Char)
  | [] => none
  | '$' :: rest =>
    let t := rest.dropWhile isJsWs
    let run := t.takeWhile isNumComma
    if run.isEmpty then matchDollarUsd rest
    else
      match t.drop run.length with
      | '.' :: d1 :: d2 :: _ =>
        if d1.isDigit && d2.isDigit then some (run ++ '.' :: d1 :: [d2]) else some run
      | _ => some run
  | _ :: rest => matchDollarUsd rest

/-- Scanner for `/USD\s*\$?\s*([\d,]+)/i`. -/
def matchUsdCode : List Char → Option (List Char)
  | [] => none
  | c :: rest =>
    if ciStarts kwUsd (c :: rest) then
      let t := ((c :: rest).drop 3).dropWhile isJsWs
      let t1 := match t with
        | '$' :: t2 => t2.dropWhile isJsWs
        | _ => t
      let run := t1.takeWhile isNumComma
      if run.isEmpty then matchUsdCode rest else some run
    else matchUsdCode rest

/-- Scanner for `/([\d,]+)\s*(?:USD|dollars?)/i`: a `[\d,]` run (maximal,
greediness never backtracks because the suffix starts with a letter)
followed, after whitespace, by `USD` or `dollar`. -/
def matchNumUsd : List Char → Option (List Char)
  | [] => none
  | c :: rest =>
    if isNumComma c then
      let run := (c :: rest).takeWhile isNumComma
      let t := ((c :: rest).drop run.length).dropWhile isJsWs
      if ciStarts kwUsd t || ciStarts kwDollar t then some run else matchNumUsd rest
    else matchNumUsd rest

/-- The `\s*([\d,.\s]+)` tail shared by the EUR scanners.  Whitespace is in
the capture class, so after maximising `\s*` the engine backtracks just far
enough to leave the capture nonempty: the capture is the maximal
`[\d,.\s]` run minus the longest whitespace prefix that still leaves one
character. -/
def classCapture (u : List Char) : Option (List Char) :=
  let r := u.takeWhile isEuroClass
  if r.isEmpty then none
  else
    let w := (r.takeWhile isJsWs).length
    some (r.drop (min w (r.length - 1)))

/-- Scanner for `/€\s*([\d,.\s]+)/`. -/
def matchEuroSign : List Char → Option (List Char)
  | [] => none
  | '€' :: rest =>
    match classCapture rest with
    | some cap => some cap
    | none => matchEuroSign rest
  | _ :: rest => matchEuroSign rest

/-- The `\s*€?\s*([\d,.\s]+)` tail of the `EUR` scanner: try the maximal
`\s*` first (which may expose a `€`), backtracking one whitespace character
at a time, preferring the branch that consumes `€`. -/
def eurTailAt (t : List Char) : Nat → Option (List Char)
  | 0 =>
    (match t with
     | '€' :: u => classCapture u
     | _ => none) <|> classCapture t
  | k + 1 =>
    let t1 := t.drop (k + 1)
    ((match t1 with
      | '€' :: u => classCapture u
      | _ => none) <|> classCapture t1) <|> eurTailAt t k

/-- Scanner for `/EUR\s*€?\s*([\d,.\s]+)/i` (the `euros?` alternative of the
third EUR pattern shares the prefix `eur`, see `matchNumEur`). -/
def matchEurCode : List Char → Option (List Char)
  | [] => none
  | c :: rest =>
    if ciStarts kwEur (c :: rest) then
      let t := (c :: rest).drop 3
      match eurTailAt t (t.takeWhile isJsWs).length with
      | some cap => some cap
      | none => matchEurCode rest
    else matchEurCode rest

/-- Scanner for `/([\d,.\s]+)\s*(?:EUR|euros?)/i`: a maximal `[\d,.\s]` run
followed by `eur` (`EUR` and `euros?` both begin with it; the run already
swallows any intervening whitespace, and its first non-member character can
never be consumed by `\s*`). -/
def matchNumEur : List Char → Option (List Char)
  | [] => none
  | c :: rest =>
    if isEuroClass c then
      let run := (c :: rest).takeWhile isEuroClass
      let t := (c :: rest).drop run.length
      if ciStarts kwEur t then some run else matchNumEur rest
    else matchNumEur rest

/-- Scanner for `/£\s*([\d,]+)/`. -/
def matchPoundSign : List Char → Option (List Char)
  | [] => none
  | '£' :: rest =>
    let t := rest.dropWhile isJsWs
    let run := t.takeWhile isNumComma
    if run.isEmpty then matchPoundSign rest else some run
  | _ :: rest => matchPoundSign rest

/-- Scanner for `/GBP\s*£?\s*([\d,]+)/i`. -/
def matchGbpCode : List Char → Option (List Char)
  | [] => none
  | c :: rest =>
    if ciStarts kwGbp (c :: rest) then
      let t := ((c :: rest).drop 3).dropWhile isJsWs
      let t1 := match t with
        | '£' :: t2 => t2.dropWhile isJsWs
        | _ => t
      let run := t1.takeWhile isNumComma
      if run.isEmpty then matchGbpCode rest else some run
    else matchGbpCode rest

/-- Scanner for `/(?:price|asking)[:\s]*\$?\s*([\d,]+)/i`. -/
def matchPriceWord : List Char → Option (List Char)
  | [] => none
  | c :: rest =>
    let kwLen : Option Nat :=
      if ciStarts kwPrice (c :: rest) then some 5
      else if ciStarts kwAsking (c :: rest) then some 6
      else none
    match kwLen with
    | some n =>
      let t := ((c :: rest).drop n).dropWhile (fun x => x == ':' || isJsWs x)
      let t1 := match t with
        | '$' :: t2 => t2.dropWhile isJsWs
        | _ => t
      let run := t1.takeWhile isNumComma
      if run.isEmpty then matchPriceWord rest else some run
    | none => matchPriceWord rest

/-- The `PRICE_PATTERNS` table of the source, in registration order, each
entry a scanner for the pattern's capture group plus the currency tag. -/
def PRICE_PATTERNS : List ((List Char → Option (List Char)) × Currency) :=
  [ (matchDollarUsd, Currency.USD)
  , (matchUsdCode, Currency.USD)
  , (matchNumUsd, Currency.USD)
  , (matchEuroSign, Currency.EUR)
  , (matchEurCode, Currency.EUR)
  , (matchNumEur, Currency.EUR)
  , (matchPoundSign, Currency.GBP)
  , (matchGbpCode, Currency.GBP)
  , (matchPriceWord, Currency.USD) ]

/-- Index of the first dot in a character list. -/
def idxOfDot : List Char → Option Nat
  | [] => none
  | '.' :: _ => some 0
  | _ :: t => (idxOfDot t).map (fun n => n + 1)

/-- The number-cleaning step of `extractPrice`: strip whitespace and commas,
then, when a dot occurs more than three characters from the end, treat all
dots as European thousands separators and remove them. -/
def priceCleanNum (cap : List Char) : List Char :=
  let n := (cap.filter (fun c => !(isJsWs c))).filter (fun c => !(c == ','))
  match idxOfDot n with
  | some i => if i < n.length - 3 then n.filter (fun c => !(c == '.')) else n
  | none => n

/-- Currency display symbols of `formatPrice`. -/
def currencySymbol : Currency → String
  | Currency.USD => "$"
  | Currency.EUR => "€"
  | Currency.GBP => "£"

/-- Group a reversed digit list into blocks of three, comma separated. -/
def groupChunks : List Char → List Char
  | a :: b :: c :: d :: rest => a :: b :: c :: ',' :: groupChunks (d :: rest)
  | l => l

/-- Insert thousands separators into a digit string. -/
def groupDigits (s : List Char) : List Char := (groupChunks s.reverse).reverse

/-- `Math.round(num / den)` for a positive denominator: floor of the value
plus one half, which is exactly the JavaScript rounding rule. -/
def jsRound (num : Int) (den : Int) : Int := Int.fdiv (2 * num + den) (2 * den)

/-- Round a `JsNum` to an integer the way display formatting does. -/
def JsNum.roundVal (a : JsNum) : Int := jsRound a.num (a.den : Int)

/-- The `formatPrice` helper: empty for a falsy amount, otherwise the
currency symbol followed by the rounded amount with thousands grouping
(`toLocaleString` with whole-number precision; amounts here are never
negative). -/
def formatPrice (num : JsNum) (currency : Currency) : String :=
  if num.isZero then ""
  else currencySymbol currency ++ String.mk (groupDigits (toString num.roundVal.toNat).data)

/-- Result record of `extractPrice` (`raw`, `formatted`, `currency`). -/
structure PriceResult where
  raw : Option JsNum
  formatted : String
  currency : Option Currency
deriving DecidableEq, Repr

/-- The pattern loop of `extractPrice`: first pattern whose capture cleans
and parses to a value of at least 1000 wins; a match that parses to `NaN`
or below 1000 falls through to the next pattern. -/
def extractPriceGo : List ((List Char → Option (List Char)) × Currency) → List Char → PriceResult
  | [], _ => ⟨none, "", none⟩
  | (m, cur) :: rest, cs =>
    match m cs with
    | some cap =>
      let n := priceCleanNum cap
      match parseFloatJs (String.mk n) with
      | some raw =>
        if raw.geNat 1000 then ⟨some raw, formatPrice raw cur, some cur⟩
        else extractPriceGo rest cs
      | none => extractPriceGo rest cs
    | none => extractPriceGo rest cs

/-- The `extractPrice` field extractor of the source. -/
def extractPrice (text : String) : PriceResult := extractPriceGo PRICE_PATTERNS text.data

/- ===================== record model (createEmptyYacht) ===================== -/

/-- A validation issue `{field, severity, message}`. -/
structure Issue where
  field : String
  severity : String
  message : String
deriving DecidableEq, Repr

/-- The listing record built by `createEmptyYacht` and filled in by the
strategies.  `confidence` sub-scores are inlined as `confidence*` fields;
`detailUrl` is not part of the source literal (it is attached later by the
extractors), modelled here as an `Option` that starts out absent. -/
structure Yacht where
  id : String
  title : String
  price : String
  priceRaw : Option JsNum
  year : String
  length : String
  lengthUnit : String
  type : String
  make : String
  model : String
  location : String
  description : String
  images : List String
  sourceUrl : String
  source : String
  detailUrl : Option String
  confidenceOverall : Int
  confidenceTitle : Int
  confidencePrice : Int
  confidenceImages : Int
  confidenceSpecs : Int
  issues : List Issue
deriving DecidableEq, Repr

/-- The `createEmptyYacht(index = 0)` factory.  `now` is the `Date.now()`
clock reading at the call, passed explicitly since the ambient clock is an
external dependency. -/
def createEmptyYacht (now : Nat) (index : Nat) : Yacht :=
  { id := "yacht-" ++ toString now ++ "-" ++ toString index
  , title := ""
  , price := ""
  , priceRaw := none
  , year := ""
  , length := ""
  , lengthUnit := "ft"
  , type := ""
  , make := ""
  , model := ""
  , location := ""
  , description := ""
  , images := []
  , sourceUrl := ""
  , source := "generic"
  , detailUrl := none
  , confidenceOverall := 50
  , confidenceTitle := 0
  , confidencePrice := 0
  , confidenceImages := 0
  , confidenceSpecs := 0
  , issues := [] }

/-- JavaScript truthiness of a nullable string. -/
def jsTruthyOptS : Option String → Bool
  | none => false
  | some s => !(s == "")

/-- JavaScript truthiness of a nullable number. -/
def jsTruthyNum : Option JsNum → Bool
  | none => false
  | some r => !r.isZero

/-- The truthy-and-positive test `yacht.priceRaw && yacht.priceRaw > 0`. -/
def pricePosB : Option JsNum → Bool
  | none => false
  | some r => !r.isZero && r.isPos

/- ===================== scoring and validation ===================== -/

/-- The high-trust provenance tags that receive the bonus in
`calculateConfidence`. -/
def bonusSource (s : String) : Bool :=
  s == "json-ld" || s == "microdata" || s == "red-ensign"

/-- The `score` accumulator of `calculateConfidence`: field weights for
present fields, plus the provenance bonus. -/
def confScore (y : Yacht) : Int :=
  (if y.title ≠ "" then 35 else 0)
    + (if 0 < y.images.length then 25 else 0)
    + (if pricePosB y.priceRaw then 15 else 0)
    + (if y.year ≠ "" then 10 else 0)
    + (if y.length ≠ "" then 5 else 0)
    + (if y.type ≠ "" then 5 else 0)
    + (if y.location ≠ "" then 5 else 0)
    + (if bonusSource y.source then 10 else 0)

/-- The `maxScore` accumulator, incremented unconditionally for every
weighted field. -/
def confMaxScore : Int := 35 + 25 + 15 + 10 + 5 + 5 + 5

/-- The `calculateConfidence` scorer: `Math.round((score / maxScore) * 100)`
(the bonus is added to the numerator, not the denominator). -/
def calculateConfidence (y : Yacht) : Int :=
  jsRound (confScore y * 100) confMaxScore

/-- The `validateYacht` issue detector. -/
def validateYacht (y : Yacht) : List Issue :=
  (if y.title = "" then [⟨"title", "error", "Missing title"⟩] else [])
    ++ (if y.price = "" then [⟨"price", "error", "Missing price"⟩]
        else if y.price = "See Details" || y.price = "POA" || y.priceRaw = some (JsNum.fromNat 0)
        then [⟨"price", "warning", "Price not shown"⟩] else [])
    ++ (if y.images.length = 0 then [⟨"images", "warning", "No images"⟩] else [])
    ++ (if y.year = "" then [⟨"year", "warning", "Missing year"⟩] else [])
    ++ (if y.length = "" then [⟨"length", "warning", "Missing length"⟩] else [])
    ++ (if y.type = "" then [⟨"type", "warning", "Missing type"⟩] else [])
    ++ (if y.location = "" then [⟨"location", "warning", "Missing location"⟩] else [])

/- ===================== deduplication ===================== -/

/-- The `yacht.priceRaw || 0` key component. -/
def jsNumOr0 : Option JsNum → JsNum
  | none => JsNum.fromNat 0
  | some r => if r.isZero then JsNum.fromNat 0 else r

/-- The loop of `deduplicateYachts`: a record with a truthy `detailUrl` is
deduplicated against the set of seen detail addresses, any other record
against the set of seen lower-cased-trimmed-title/price pairs; the first
occurrence is kept. -/
def dedupGo : List Yacht → List String → List (String × JsNum) → List Yacht
  | [], _, _ => []
  | y :: rest, seenUrls, seenTitles =>
    if jsTruthyOptS y.detailUrl then
      if y.detailUrl.getD "" ∈ seenUrls then dedupGo rest seenUrls seenTitles
      else y :: dedupGo rest (y.detailUrl.getD "" :: seenUrls) seenTitles
    else
      if (jsTrim (lowerStr y.title), jsNumOr0 y.priceRaw) ∈ seenTitles then
        dedupGo rest seenUrls seenTitles
      else y :: dedupGo rest seenUrls ((jsTrim (lowerStr y.title), jsNumOr0 y.priceRaw) :: seenTitles)

/-- The `deduplicateYachts` pass. -/
def deduplicateYachts (ys : List Yacht) : List Yacht := dedupGo ys [] []

/-- The deduplication key of a record: its truthy detail address, or else the
lower-cased trimmed title paired with `priceRaw || 0` (the two key spaces
never collide, matching the two separate seen-sets of the source). -/
def dedupKey (y : Yacht) : String ⊕ (String × JsNum) :=
  if jsTruthyOptS y.detailUrl then Sum.inl (y.detailUrl.getD "")
  else Sum.inr (jsTrim (lowerStr y.title), jsNumOr0 y.priceRaw)

/- ===================== shared spec extractor (extractSpecs) ===================== -/

/-- Numeric rendering of four digit characters. -/
def yearVal (a b c d : Char) : Nat :=
  1000 * (a.toNat - 48) + 100 * (b.toNat - 48) + 10 * (c.toNat - 48) + (d.toNat - 48)

/-- First match of a `\b(dddd)\b` year pattern whose four-digit value
satisfies `ok` (the regex alternations `19[5-9]\d|20[0-2]\d` and
`19[89]\d|20[0-2]\d` are exactly value-range tests on four-digit tokens).
`prev` is the character before the scan position, for the left boundary. -/
def findYearScan (ok : Nat → Bool) : Option Char → List Char → Option Nat
  | _, [] => none
  | prev, a :: rest =>
    let here : Option Nat :=
      if prev.elim true (fun p => !(isWordChar p)) then
        match rest with
        | b :: c :: d :: rest2 =>
          if a.isDigit && b.isDigit && c.isDigit && d.isDigit
              && (rest2.head?.elim true (fun e => !(isWordChar e))) then
            let n := yearVal a b c d
            if ok n then some n else none
          else none
        | _ => none
      else none
    here <|> findYearScan ok (some a) rest

/-- The year alternation `19[5-9]\d|20[0-2]\d` of `extractSpecs`. -/
def specYearOk (n : Nat) : Bool := (1950 ≤ n && n ≤ 1999) || (2000 ≤ n && n ≤ 2029)

/-- The year alternation `19[89]\d|20[0-2]\d` of `parseJsonLdProduct`. -/
def jsonLdYearOk (n : Nat) : Bool := (1980 ≤ n && n ≤ 1999) || (2000 ≤ n && n ≤ 2029)

def kwLength : List Char := ("length").data
def kwLoa : List Char := ("loa").data
def kwFt : List Char := ("ft").data
def kwFeet : List Char := ("feet").data

/-- The capture `(\d+(?:\.\d+)?)`, returning the capture and the rest. -/
def numCapture (cs : List Char) : Option (List Char × List Char) :=
  let d := cs.takeWhile Char.isDigit
  if d.isEmpty then none
  else
    let r := cs.drop d.length
    match r with
    | '.' :: t =>
      let f := t.takeWhile Char.isDigit
      if f.isEmpty then some (d, r) else some (d ++ '.' :: f, t.drop f.length)
    | _ => some (d, r)

/-- The unit alternation `(?:ft|feet|')`. -/
def ftUnitAt (t : List Char) : Bool :=
  ciStarts kwFt t || ciStarts kwFeet t || startsList [Char.ofNat 39] t

/-- The unit alternation `(?:m|meters?|metres?)`: the one-letter alternative
`m` is tried first and always suffices. -/
def mUnitAt : List Char → Bool
  | c :: _ => lowerChar c == 'm'
  | [] => false

/-- Scanner for `/(?:length|loa)[:\s]*(\d+(?:\.\d+)?)\s*UNIT.../i` (length
patterns 1 and 3; the trailing optional `(?:length|loa)?` group never
constrains the match). -/
def matchLenPre (unitAt : List Char → Bool) : List Char → Option (List Char)
  | [] => none
  | c :: rest =>
    let kw : Option Nat :=
      if ciStarts kwLength (c :: rest) then some 6
      else if ciStarts kwLoa (c :: rest) then some 3
      else none
    match kw with
    | some n =>
      let t := ((c :: rest).drop n).dropWhile (fun x => x == ':' || isJsWs x)
      match numCapture t with
      | some (cap, r) =>
        if unitAt (r.dropWhile isJsWs) then some cap else matchLenPre unitAt rest
      | none => matchLenPre unitAt rest
    | none => matchLenPre unitAt rest

/-- Scanner for `/(\d+(?:\.\d+)?)\s*UNIT\s*(?:length|loa)?/i` (length
patterns 2 and 4). -/
def matchLenNum (unitAt : List Char → Bool) : List Char → Option (List Char)
  | [] => none
  | c :: rest =>
    match numCapture (c :: rest) with
    | some (cap, r) =>
      if unitAt (r.dropWhile isJsWs) then some cap else matchLenNum unitAt rest
    | none => matchLenNum unitAt rest

/-- The ordered `lengthPatterns` table of `extractSpecs`, paired with the
unit tag the source derives from the pattern's text. -/
def lengthPatternList : List ((List Char → Option (List Char)) × String) :=
  [ (matchLenPre ftUnitAt, "ft")
  , (matchLenNum ftUnitAt, "ft")
  , (matchLenPre mUnitAt, "m")
  , (matchLenNum mUnitAt, "m") ]

/-- The length-pattern loop: the first pattern that matches with a parsed
value in the plausible range [15, 500] wins; a match outside the range
falls through to the next pattern. -/
def lengthScanGo : List ((List Char → Option (List Char)) × String) → List Char → Option (List Char × String)
  | [], _ => none
  | (m, u) :: rest, cs =>
    match m cs with
    | some cap =>
      match parseFloatJs (String.mk cap) with
      | some len =>
        if len.geNat 15 && len.leNat 500 then some (cap, u) else lengthScanGo rest cs
      | none => lengthScanGo rest cs
    | none => lengthScanGo rest cs

/-- The `typeKeywords` table in insertion order. -/
def typeKeywordTable : List (String × String) :=
  [ ("motor yacht", "motor"), ("motoryacht", "motor"), ("power boat", "motor")
  , ("sailing yacht", "sail"), ("sailboat", "sail"), ("sloop", "sail"), ("ketch", "sail")
  , ("catamaran", "catamaran"), ("multihull", "catamaran")
  , ("superyacht", "superyacht"), ("megayacht", "superyacht"), ("mega yacht", "superyacht")
  , ("sportfish", "motor"), ("sport fish", "motor"), ("express cruiser", "motor")
  , ("trawler", "motor"), ("flybridge", "motor"), ("sedan", "motor") ]

/-- First keyword of the type table contained in the lower-cased text. -/
def typeScan (lowText : String) : Option String :=
  (typeKeywordTable.find? (fun kv => strContains lowText kv.1)).map (fun kv => kv.2)

def kwLocation : List Char := ("location").data
def kwLocated : List Char := ("located").data
def kwPort : List Char := ("port").data

/-- The capture class `[A-Za-z\s,]` of the first location pattern. -/
def isLocClass (c : Char) : Bool := isAsciiLetter c || isJsWs c || c == ','

/-- The terminator alternation `(?:\.|$|\n|<)`. -/
def locTermOk : List Char → Bool
  | [] => true
  | c :: _ => c == '.' || c == '\n' || c == '<'

/-- The lazy quantifier `[A-Za-z\s,]+?` followed by the terminator: grow one
class character at a time, stopping at the first position where the
terminator matches. -/
def lazyGrow (acc : List Char) : List Char → Option (List Char)
  | [] => none
  | c :: rest =>
    if isLocClass c then
      if locTermOk rest then some (acc ++ [c]) else lazyGrow (acc ++ [c]) rest
    else none

/-- Scanner for
`/(?:location|located|port)[:\s]+([A-Za-z][A-Za-z\s,]+?)(?:\.|$|\n|<)/i`. -/
def matchLocKw : List Char → Option (List Char)
  | [] => none
  | c :: rest =>
    let kw : Option Nat :=
      if ciStarts kwLocation (c :: rest) then some 8
      else if ciStarts kwLocated (c :: rest) then some 7
      else if ciStarts kwPort (c :: rest) then some 4
      else none
    match kw with
    | some n =>
      let t := (c :: rest).drop n
      let w := t.takeWhile (fun x => x == ':' || isJsWs x)
      if w.isEmpty then matchLocKw rest
      else
        match t.drop w.length with
        | c0 :: t2 =>
          if isAsciiLetter c0 then
            match lazyGrow [c0] t2 with
            | some cap => some cap
            | none => matchLocKw rest
          else matchLocKw rest
        | [] => matchLocKw rest
    | none => matchLocKw rest

/-- One `[A-Z][a-z]+` word at the head of the list. -/
def capWordAt : List Char → Option (List Char × List Char)
  | [] => none
  | c :: rest =>
    if c.isUpper then
      let ls := rest.takeWhile Char.isLower
      if ls.isEmpty then none else some (c :: ls, rest.drop ls.length)
    else none

/-- The starred group `(?:\s+[A-Z][a-z]+)*` followed by a tail matcher, with
full greedy backtracking: prefer consuming one more word, fall back to the
tail at the current position.  `fuel` bounds the recursion by the input
length. -/
def starWords (tail : List Char → Option (List Char)) : Nat → List Char → List Char → Option (List Char)
  | 0, acc, u => (tail u).map (fun t => acc ++ t)
  | fuel + 1, acc, u =>
    let extended :=
      (let w := u.takeWhile isJsWs
       if w.isEmpty then none
       else match capWordAt (u.drop w.length) with
         | some (word, r) => starWords tail fuel (acc ++ w ++ word) r
         | none => none)
    extended <|> (tail u).map (fun t => acc ++ t)

/-- The tail `,\s*[A-Z]{2}\b` of the City-and-region pattern. -/
def cityStTail : List Char → Option (List Char)
  | ',' :: rest =>
    let w := rest.takeWhile isJsWs
    match rest.drop w.length with
    | a :: b :: rest2 =>
      if a.isUpper && b.isUpper && (rest2.head?.elim true (fun e => !(isWordChar e)))
      then some (',' :: (w ++ [a, b])) else none
    | _ => none
  | _ => none

/-- The `\b` assertion as a tail matcher consuming nothing. -/
def bWordEnd : List Char → Option (List Char)
  | [] => some []
  | c :: _ => if isWordChar c then none else some []

/-- The tail `,\s*[A-Z][a-z]+(?:\s+[A-Z][a-z]+)*\b` of the City-and-country
pattern. -/
def cityCountryTail : List Char → Option (List Char)
  | ',' :: rest =>
    let w := rest.takeWhile isJsWs
    match capWordAt (rest.drop w.length) with
    | some (word, r) => (starWords bWordEnd r.length word r).map (fun t => ',' :: (w ++ t))
    | none => none
  | _ => none

/-- Scanner for `/\b([A-Z][a-z]+(?:\s+[A-Z][a-z]+)*TAIL)\b/` where `TAIL`
is one of the comma tails above; `prev` tracks the character before the
position for the leading `\b`. -/
def scanCityRegion (tail : List Char → Option (List Char)) : Option Char → List Char → Option (List Char)
  | _, [] => none
  | prev, c :: rest =>
    let here : Option (List Char) :=
      if prev.elim true (fun p => !(isWordChar p)) then
        match capWordAt (c :: rest) with
        | some (word, r) => starWords tail r.length word r
        | none => none
      else none
    here <|> scanCityRegion tail (some c) rest

/-- The ordered `locationPatterns` table of `extractSpecs`. -/
def locPatternList : List (List Char → Option (List Char)) :=
  [ matchLocKw
  , fun cs => scanCityRegion cityStTail none cs
  , fun cs => scanCityRegion cityCountryTail none cs ]

/-- The location-pattern loop: first pattern with a capture of length in
[3, 50] wins; a capture outside that window falls through. -/
def locationScanGo : List (List Char → Option (List Char)) → List Char → Option (List Char)
  | [], _ => none
  | m :: rest, cs =>
    match m cs with
    | some cap =>
      if 3 ≤ cap.length && cap.length ≤ 50 then some cap else locationScanGo rest cs
    | none => locationScanGo rest cs

/-- The shared `extractSpecs(element, yacht)` field extractor over the
element's text content.  `currentYear` is `new Date().getFullYear()`,
passed explicitly since the ambient clock is an external dependency. -/
def extractSpecs (currentYear : Nat) (text : String) (yacht : Yacht) : Yacht :=
  let y1 := match findYearScan specYearOk none text.data with
    | some yr =>
      if 1950 ≤ yr && yr ≤ currentYear + 1 then
        { yacht with year := toString yr, confidenceSpecs := yacht.confidenceSpecs + 20 }
      else yacht
    | none => yacht
  let y2 := match lengthScanGo lengthPatternList text.data with
    | some capU =>
      { y1 with length := String.mk capU.1, lengthUnit := capU.2
              , confidenceSpecs := y1.confidenceSpecs + 20 }
    | none => y1
  let y3 := match typeScan (lowerStr text) with
    | some ty => { y2 with type := ty, confidenceSpecs := y2.confidenceSpecs + 15 }
    | none => y2
  match locationScanGo locPatternList text.data with
  | some cap =>
    { y3 with location := cleanText (String.mk cap), confidenceSpecs := y3.confidenceSpecs + 15 }
  | none => y3

/- ===================== URL resolution and image validity ===================== -/

/-- The parts of a parsed base address the source reads. -/
structure UrlParts where
  protocol : String
  origin : String
deriving DecidableEq, Repr

/-- The platform URL constructor as an explicit capability: `parse b`
models `new URL(b)` (`none` when it throws), `resolve u b` models
`new URL(u, b).href` (`none` when it throws). -/
structure UrlApi where
  parse : String → Option UrlParts
  resolve : String → String → Option String

/-- The `resolveUrl(url, baseUrl)` helper: `null` for an absent or falsy
address, `null` for an inline-encoded (`data:`) address, the address
unchanged when it is already absolute (`http...`), otherwise
protocol-relative / root-relative / relative resolution against the base,
with every thrown exception caught and turned into `null`. -/
def resolveUrl (api : UrlApi) (url : Option String) (baseUrl : String) : Option String :=
  match url with
  | none => none
  | some u =>
    if u = "" then none
    else if strStarts u ("data:") then none
    else if strStarts u ("http") then some u
    else
      match api.parse baseUrl with
      | none => none
      | some base =>
        if strStarts u ("//") then some (base.protocol ++ u)
        else if strStarts u ("/") then some (base.origin ++ u)
        else api.resolve u baseUrl

/-- An `img`-like element with the attributes `isValidImage` and the image
collectors read.  Absent numeric attributes are `0` for the live
properties (as in the DOM) and `none` for an unparsable `width`/`height`
attribute (`parseInt` yielding `NaN`). -/
structure ImgEl where
  src : String
  dataSrc : String
  dataLazySrc : String
  naturalWidth : Nat
  width : Nat
  attrWidth : Option Nat
  naturalHeight : Nat
  height : Nat
  attrHeight : Option Nat
deriving DecidableEq, Repr

/-- `a || b` on strings (empty is falsy). -/
def jsOrS (a b : String) : String := if a = "" then b else a

/-- `a || b` on nullable strings, propagating `undefined`. -/
def jsOrOpt (a b : Option String) : Option String :=
  match a with
  | some s => if s = "" then b else some s
  | none => b

/-- The `excludePatterns` denylist of `isValidImage`. -/
def excludeList : List String :=
  [ "logo", "icon", "placeholder", "loading", "spinner", "avatar"
  , "banner", "header", "footer", "social", "facebook", "twitter"
  , "linkedin", "instagram", "pinterest", "youtube", "button"
  , "1x1", "pixel", "tracking", "beacon", "spacer" ]

/-- The `||`-chain `img.naturalWidth || img.width || parseInt(attr) || dflt`
(zero and `NaN` are falsy). -/
def dimChain (naturalDim dim : Nat) (attr : Option Nat) (dflt : Nat) : Nat :=
  if naturalDim ≠ 0 then naturalDim
  else if dim ≠ 0 then dim
  else match attr with
    | some n => if n ≠ 0 then n else dflt
    | none => dflt

/-- The `isValidImage` filter: denylist-substring rejection on the
lower-cased source address, then the minimum-dimension gate (200 × 150)
with a 300 × 200 default when no size hint is available. -/
def isValidImage (img : ImgEl) : Bool :=
  let src := lowerStr (jsOrS img.src img.dataSrc)
  if excludeList.any (fun p => strContains src p) then false
  else
    let w := dimChain img.naturalWidth img.width img.attrWidth 300
    let h := dimChain img.naturalHeight img.height img.attrHeight 200
    decide (200 ≤ w) && decide (150 ≤ h)

/-- `array.filter(Boolean)` over nullable strings (drops `null`/`undefined`
and the empty string). -/
def jsCompact (l : List (Option String)) : List String :=
  l.filterMap (fun o => match o with
    | some s => if s = "" then none else some s
    | none => none)

def quoteS : Char := Char.ofNat 39
def quoteD : Char := Char.ofNat 34

/-- The capture class `[^'")\s]` of the background-image pattern. -/
def cssUrlClass (c : Char) : Bool :=
  !(c == quoteS || c == quoteD || c == ')' || isJsWs c)

/-- Scanner for the background-image pattern
`/url\(['"]?([^'")\s]+)['"]?\)/`. -/
def matchCssUrl : List Char → Option (List Char)
  | [] => none
  | c :: rest =>
    if startsList (("url(").data) (c :: rest) then
      let t := (c :: rest).drop 4
      let t1 := match t with
        | q :: t2 => if q == quoteS || q == quoteD then t2 else q :: t2
        | [] => []
      let run := t1.takeWhile cssUrlClass
      if run.isEmpty then matchCssUrl rest
      else
        let t2 := t1.drop run.length
        let t3 := match t2 with
          | q :: t4 => if q == quoteS || q == quoteD then t4 else q :: t4
          | [] => []
        match t3 with
        | ')' :: _ => some run
        | _ => matchCssUrl rest
    else matchCssUrl rest

/-- The background-image fallback loop of `extractFromGenericCard`: for each
styled element, extract the `url(...)` argument, resolve it, and push it
while fewer than three images have been collected and the resolved address
is truthy and not a placeholder. -/
def bgImages (api : UrlApi) : List String → String → List String → List String
  | [], _, acc => acc
  | st :: rest, baseUrl, acc =>
    match matchCssUrl st.data with
    | some cap =>
      if acc.length < 3 then
        match resolveUrl api (some (String.mk cap)) baseUrl with
        | some u =>
          if u = "" then bgImages api rest baseUrl acc
          else if strContains u ("placeholder") then bgImages api rest baseUrl acc
          else bgImages api rest baseUrl (acc ++ [u])
        | none => bgImages api rest baseUrl acc
      else bgImages api rest baseUrl acc
    | none => bgImages api rest baseUrl acc

/- ===================== generic card extraction ===================== -/

/-- A heading-or-link element from the card's title query
(`h1, h2, h3, h4, h5, a[href*="boat"], a[href*="yacht"]`): its text, its
own `href` property, and the `href` of its closest enclosing anchor. -/
structure Heading where
  text : String
  href : Option String
  closestHref : Option String
deriving DecidableEq, Repr

/-- A candidate listing card as the generic extractor reads it: text
content, the title-query results in document order, the `img` descendants,
the `style` attributes of `[style*="background"]` descendants, and the
text of the first location-classed descendant when present. -/
structure Card where
  text : String
  headings : List Heading
  imgs : List ImgEl
  bgStyles : List String
  locationText : Option String
deriving DecidableEq, Repr

/-- Does the cleaned title start with a currency symbol
(`/^[\$€£]/`)? -/
def startsWithCurrency (t : String) : Bool :=
  match t.data with
  | c :: _ => c == '$' || c == '€' || c == '£'
  | [] => false

/-- The title-selection loop of `extractFromGenericCard`: the first heading
whose cleaned text has length in [5, 150] and does not start with a
currency symbol provides the title and the detail address
(`h.href || h.closest('a')?.href`). -/
def findTitleHeading : List Heading → Option (String × Option String)
  | [] => none
  | h :: rest =>
    let t := cleanText h.text
    if 5 ≤ t.length && t.length ≤ 150 && !(startsWithCurrency t) then
      some (t, jsOrOpt h.href h.closestHref)
    else findTitleHeading rest

/-- The `img`-tag image collector of `extractFromGenericCard`: valid images,
their first truthy source attribute resolved, compacted. -/
def imgTagImages (api : UrlApi) (card : Card) (baseUrl : String) : List String :=
  jsCompact ((card.imgs.filter isValidImage).map
    (fun im => resolveUrl api (some (jsOrS (jsOrS im.src im.dataSrc) im.dataLazySrc)) baseUrl))

/-- The record built by `extractFromGenericCard` before its final title
guard: price (kept only in the plausible yacht-price range), title,
images with the background fallback, location element, and the shared
spec extractor. -/
def genericCardYacht (api : UrlApi) (currentYear now : Nat) (card : Card) (baseUrl : String) (index : Nat) : Yacht :=
  let yacht := createEmptyYacht now index
  let priceData := extractPrice card.text
  let y1 := match priceData.raw with
    | some r =>
      if !r.isZero && r.geNat 5000 && r.leNat 100000000 then
        { yacht with price := priceData.formatted, priceRaw := some r, confidencePrice := 70 }
      else yacht
    | none => yacht
  let y2 := match findTitleHeading card.headings with
    | some td => { y1 with title := td.1, confidenceTitle := 65, detailUrl := td.2 }
    | none => y1
  let y3 := { y2 with images := imgTagImages api card baseUrl }
  let y4 := if y3.images.length = 0 then { y3 with images := bgImages api card.bgStyles baseUrl [] } else y3
  let y5 := { y4 with confidenceImages := if 0 < y4.images.length then 70 else 0 }
  let y6 := match card.locationText with
    | some lt => { y5 with location := cleanText lt, confidenceSpecs := y5.confidenceSpecs + 20 }
    | none => y5
  extractSpecs currentYear card.text y6

/-- The `extractFromGenericCard` candidate extractor: `null` outside the
plausible text window [20, 5000] and `null` when no title was found,
otherwise the built record. -/
def extractFromGenericCard (api : UrlApi) (currentYear now : Nat) (card : Card) (baseUrl : String) (index : Nat) : Option Yacht :=
  if card.text.length < 20 || 5000 < card.text.length then none
  else if (genericCardYacht api currentYear now card baseUrl index).title = "" then none
  else some (genericCardYacht api currentYear now card baseUrl index)

/- ===================== structured data (parseJsonLdProduct) ===================== -/

/-- A linked-data image entry: a plain address string or an object whose
`url` member may be absent. -/
inductive JImg
  | str (s : String)
  | obj (url : Option String)
deriving DecidableEq, Repr

/-- The address of a linked-data image entry
(`typeof img === 'string' ? img : img.url`). -/
def jImgUrl : JImg → Option String
  | JImg.str s => some s
  | JImg.obj u => u

/-- The first offer of a linked-data product (the source reads `offers[0]`
of an array, or the lone `offers` object). -/
structure JsonLdOffer where
  price : String
deriving DecidableEq, Repr

/-- A linked-data Product/Vehicle item as `parseJsonLdProduct` reads it:
`offers` is the first offer when the member is present, `image` is the
member normalised to a list (`none` when absent — note the source treats
an empty array as present). -/
structure JsonLdProduct where
  name : String
  description : String
  offers : Option JsonLdOffer
  image : Option (List JImg)
deriving DecidableEq, Repr

/-- The `parseJsonLdProduct` strategy: provenance `json-ld` with seeded
confidence 85, direct title/description, offer price through `parseFloat`
(`|| null`), images copied verbatim (no `isValidImage`, no `resolveUrl`),
and a year scanned from title plus description.  The record factory is
called without an index argument, so every record of this strategy uses
index 0. -/
def parseJsonLdProduct (now : Nat) (data : JsonLdProduct) : Yacht :=
  let y0 := createEmptyYacht now 0
  let y1 := { y0 with source := "json-ld", confidenceOverall := 85
                    , title := data.name, description := data.description }
  let y2 := match data.offers with
    | some offer =>
      let pr : Option JsNum := match parseFloatJs offer.price with
        | some v => if v.isZero then none else some v
        | none => none
      { y1 with priceRaw := pr
              , price := (match pr with
                 | some v => formatPrice v Currency.USD
                 | none => "")
              , confidencePrice := 90 }
    | none => y1
  let y3 := match data.image with
    | some imgs => { y2 with images := jsCompact (imgs.map jImgUrl), confidenceImages := 90 }
    | none => y2
  match findYearScan jsonLdYearOk none ((y3.title ++ " " ++ y3.description).data) with
  | some n => { y3 with year := toString n }
  | none => y3

/- ===================== orchestrator (parseYachtListings) ===================== -/

/-- A registered site adapter over an opaque parsed-document type `α`
(`{name, detect, parse}` applied to the fixed source address). -/
structure SiteAdapter (α : Type) where
  name : String
  detect : α → Bool
  parse : α → List Yacht

/-- The adapter-dispatch loop of the orchestrator: in registration order,
run `parse` for each detecting adapter, stopping at the first nonempty
result; `acc` is the running `yachts` variable. -/
def dispatchLoop {α : Type} (doc : α) : List (SiteAdapter α) → List Yacht → List Yacht
  | [], acc => acc
  | a :: rest, acc =>
    if a.detect doc then
      if 0 < (a.parse doc).length then a.parse doc
      else dispatchLoop doc rest (a.parse doc)
    else dispatchLoop doc rest acc

/-- The strategy-selection steps 2-4 of `parseYachtListings`: structured
data first, then the adapter dispatch, then the generic fallback.  The
strategy outputs over the parsed document are passed explicitly since the
document model is an external dependency. -/
def selectStrategy {α : Type} (doc : α) (structured : List Yacht)
    (adapters : List (SiteAdapter α)) (generic : List Yacht) : List Yacht :=
  let yachts : List Yacht := []
  let yachts1 := if 0 < structured.length then structured else yachts
  let yachts2 := if yachts1.length = 0 then dispatchLoop doc adapters yachts1 else yachts1
  if yachts2.length = 0 then generic else yachts2

/-- The acceptance filter of step 5: reject below the confidence floor
(`MIN_LISTING_CONFIDENCE = 40`), then reject records with neither title
nor truthy `priceRaw`. -/
def acceptYacht (y : Yacht) : Bool :=
  if y.confidenceOverall < 40 then false
  else if y.title = "" ∧ jsTruthyNum y.priceRaw = false then false
  else true

/-- The per-record mutation of step 5: recompute the overall confidence,
attach the validation issues and the source address. -/
def finalizeYacht (sourceUrl : String) (y : Yacht) : Yacht :=
  let y1 := { y with confidenceOverall := calculateConfidence y }
  { y1 with issues := validateYacht y1, sourceUrl := sourceUrl }

/-- The `parseYachtListings` orchestrator: site validation (its result and
reason passed explicitly, the keyword heuristic reads the raw input),
strategy selection, per-record scoring/validation/filtering, and
deduplication. -/
def parseYachtListings {α : Type} (doc : α) (valid : Bool) (reason : String)
    (structured : List Yacht) (adapters : List (SiteAdapter α))
    (generic : List Yacht) (sourceUrl : String) : List Yacht × Option String :=
  if valid = false then ([], some reason)
  else
    (deduplicateYachts
      (((selectStrategy doc structured adapters generic).map (finalizeYacht sourceUrl)).filter acceptYacht),
     none)

/-- Modelled from the spec: the dispatcher "uses the first adapter whose
`detect` returns true AND whose `parse` yields at least one record".
This is the specification-side characterisation compared against the
embedded loop `dispatchLoop`. -/
def firstDetectingParse {α : Type} (doc : α) (adapters : List (SiteAdapter α)) : List Yacht :=
  match adapters.find? (fun a => a.detect doc && !(a.parse doc).isEmpty) with
  | some a => a.parse doc
  | none => []

/- ===================== concrete runs used by the theorems ===================== -/

/-- A URL capability whose base parsing and relative resolution both fail
(a malformed base address). -/
def api0 : UrlApi := { parse := fun _ => none, resolve := fun _ _ => none }

/-- A URL capability with a well-formed base and failing relative
resolution. -/
def apiHttp : UrlApi :=
  { parse := fun _ => some ⟨"http:", "http://example.com"⟩, resolve := fun _ _ => none }

/-- A candidate card carrying a valid price but no heading at all. -/
def cardPriceOnly : Card :=
  { text := "$25,000 lovely boat for sale"
  , headings := [], imgs := [], bgStyles := [], locationText := none }

/-- A large, denylist-free image element. -/
def imgMain : ImgEl :=
  { src := "http://x/a.jpg", dataSrc := "", dataLazySrc := ""
  , naturalWidth := 800, width := 0, attrWidth := none
  , naturalHeight := 600, height := 0, attrHeight := none }

/-- A candidate card with a heading and an image but no price. -/
def cardWithTitle : Card :=
  { text := "Lovely 2018 Sunseeker Manhattan for sale now"
  , headings := [{ text := "2018 Sunseeker Manhattan", href := some ("http://x/b"), closestHref := none }]
  , imgs := [imgMain], bgStyles := [], locationText := none }

/-- A record with every weighted field present and a bonus provenance. -/
def confFullYacht : Yacht :=
  { createEmptyYacht 0 0 with
      title := "2020 Explorer 50", images := ["http://x/a.jpg"]
    , priceRaw := some (JsNum.fromNat 250000), year := "2020", length := "50"
    , type := "motor", location := "Miami, FL", source := "json-ld" }

/-- A linked-data product whose image list holds a data-embedded address. -/
def jsonLdDataImg : JsonLdProduct :=
  { name := "Oceanis 45 Cruiser", description := ""
  , offers := some ⟨"2850000"⟩
  , image := some [JImg.str ("data:image/png;base64,AAAA")] }

/-- The structured-data result list for the run on `jsonLdDataImg`. -/
def structuredRun : List Yacht := [parseJsonLdProduct 5 jsonLdDataImg]

/-- The orchestrator output for a document whose structured data is
`jsonLdDataImg`. -/
def dataImgOut : List Yacht :=
  (parseYachtListings () true "" structuredRun ([] : List (SiteAdapter Unit)) []
    ("http://broker.example/inventory")).1

/-- A generic-strategy record with title, image, price and year. -/
def genYacht : Yacht :=
  { createEmptyYacht 2 0 with
      title := "Nice Trawler 36", images := ["http://x/t.jpg"]
    , priceRaw := some (JsNum.fromNat 65000), year := "1999" }

/-- The orchestrator output for a run whose generic fallback found
`genYacht`. -/
def genOut : List Yacht :=
  (parseYachtListings () true "" [] ([] : List (SiteAdapter Unit)) [genYacht] ("http://b/")).1

/-- Two records sharing one detail address. -/
def dupA : Yacht := { createEmptyYacht 1 0 with title := "Alpha 40", detailUrl := some ("http://d/1") }

/-- Second record with the same detail address as `dupA`. -/
def dupB : Yacht := { createEmptyYacht 1 1 with title := "Beta 42", detailUrl := some ("http://d/1") }

/-- The duplicate pair. -/
def dupList : List Yacht := [dupA, dupB]

/-- The record the generic extractor builds from `cardWithTitle`. -/
def cardWithTitleRec : Yacht := genericCardYacht api0 2026 3 cardWithTitle ("http://b/") 0

/-- Has the deduplication key of this record already been seen by either of
the two seen-sets of the loop? -/
def keySeen (su : List String) (st : List (String × JsNum)) (y : Yacht) : Prop :=
  match dedupKey y with
  | Sum.inl u => u ∈ su
  | Sum.inr k => k ∈ st

/- ===================== helper lemmas ===================== -/

theorem jsRound_confMax (s : Int) : jsRound (s * 100) confMaxScore = s := by
  unfold jsRound confMaxScore
  have h1 : (2 : Int) * (s * 100) + (35 + 25 + 15 + 10 + 5 + 5 + 5) = 100 + s * 200 := by ring
  have h2 : (2 : Int) * ((35 : Int) + 25 + 15 + 10 + 5 + 5 + 5) = 200 := by norm_num
  rw [h1, h2, Int.fdiv_eq_ediv _ (by norm_num)]
  rw [Int.add_mul_ediv_right _ _ (by norm_num : (200 : Int) ≠ 0)]
  norm_num

theorem calculateConfidence_eq_score (y : Yacht) : calculateConfidence y = confScore y := by
  unfold calculateConfidence
  exact jsRound_confMax (confScore y)

theorem confScore_bounds (y : Yacht) : 0 ≤ confScore y ∧ confScore y ≤ 110 := by
  unfold confScore
  constructor <;> (split_ifs <;> omega)

theorem mem_of_mem_dedupGo {l : List Yacht} {su : List String} {st : List (String × JsNum)}
    {y : Yacht} (h : y ∈ dedupGo l su st) : y ∈ l := by
  induction l generalizing su st with
  | nil => simp [dedupGo] at h
  | cons a rest ih =>
    unfold dedupGo at h
    split at h
    · split at h
      · exact List.mem_cons_of_mem a (ih h)
      · rcases List.mem_cons.mp h with h1 | h2
        · subst h1; exact List.mem_cons_self y rest
        · exact List.mem_cons_of_mem a (ih h2)
    · split at h
      · exact List.mem_cons_of_mem a (ih h)
      · rcases List.mem_cons.mp h with h1 | h2
        · subst h1; exact List.mem_cons_self y rest
        · exact List.mem_cons_of_mem a (ih h2)

theorem dedupKey_of_truthy {y : Yacht} (ht : jsTruthyOptS y.detailUrl = true) :
    dedupKey y = Sum.inl (y.detailUrl.getD "") := by
  simp [dedupKey, ht]

theorem dedupKey_of_falsy {y : Yacht} (hf : jsTruthyOptS y.detailUrl = false) :
    dedupKey y = Sum.inr (jsTrim (lowerStr y.title), jsNumOr0 y.priceRaw) := by
  simp [dedupKey, hf]

theorem keySeen_cons_url {su : List String} {st : List (String × JsNum)} {z : Yacht} {u : String}
    (h : keySeen su st z) : keySeen (u :: su) st z := by
  cases hd : dedupKey z with
  | inl v =>
    simp only [keySeen, hd] at h ⊢
    exact List.mem_cons_of_mem u h
  | inr k =>
    simp only [keySeen, hd] at h ⊢
    exact h

theorem keySeen_cons_title {su : List String} {st : List (String × JsNum)} {z : Yacht}
    {k : String × JsNum} (h : keySeen su st z) : keySeen su (k :: st) z := by
  cases hd : dedupKey z with
  | inl v =>
    simp only [keySeen, hd] at h ⊢
    exact h
  | inr k2 =>
    simp only [keySeen, hd] at h ⊢
    exact List.mem_cons_of_mem k h

theorem not_keySeen_of_mem_dedupGo :
    ∀ {l : List Yacht} {su : List String} {st : List (String × JsNum)} {z : Yacht},
      z ∈ dedupGo l su st → ¬ keySeen su st z := by
  intro l
  induction l with
  | nil => intro su st z h; simp [dedupGo] at h
  | cons a rest ih =>
    intro su st z h
    unfold dedupGo at h
    by_cases ht : jsTruthyOptS a.detailUrl = true
    · rw [if_pos ht] at h
      by_cases hm : a.detailUrl.getD "" ∈ su
      · rw [if_pos hm] at h
        exact ih h
      · rw [if_neg hm] at h
        rcases List.mem_cons.mp h with h1 | h2
        · subst h1
          intro hk
          simp only [keySeen, dedupKey_of_truthy ht] at hk
          exact hm hk
        · intro hk
          exact (ih h2) (keySeen_cons_url hk)
    · rw [if_neg ht] at h
      have hf : jsTruthyOptS a.detailUrl = false := by
        revert ht; cases jsTruthyOptS a.detailUrl <;> simp
      by_cases hm : (jsTrim (lowerStr a.title), jsNumOr0 a.priceRaw) ∈ st
      · rw [if_pos hm] at h
        exact ih h
      · rw [if_neg hm] at h
        rcases List.mem_cons.mp h with h1 | h2
        · subst h1
          intro hk
          simp only [keySeen, dedupKey_of_falsy hf] at hk
          exact hm hk
        · intro hk
          exact (ih h2) (keySeen_cons_title hk)

theorem pairwise_dedupGo :
    ∀ (l : List Yacht) (su : List String) (st : List (String × JsNum)),
      (dedupGo l su st).Pairwise (fun a b => dedupKey a ≠ dedupKey b) := by
  intro l
  induction l with
  | nil => intro su st; simp [dedupGo]
  | cons a rest ih =>
    intro su st
    unfold dedupGo
    by_cases ht : jsTruthyOptS a.detailUrl = true
    · rw [if_pos ht]
      by_cases hm : a.detailUrl.getD "" ∈ su
      · rw [if_pos hm]; exact ih su st
      · rw [if_neg hm]
        refine List.Pairwise.cons ?_ (ih _ st)
        intro b hb hkey
        apply not_keySeen_of_mem_dedupGo hb
        cases hd : dedupKey b with
        | inl v =>
          simp only [keySeen, hd]
          have : Sum.inl (α := String) (β := String × JsNum) (a.detailUrl.getD "") = Sum.inl v := by
            rw [← hd, ← hkey, dedupKey_of_truthy ht]
          rcases Sum.inl.inj this with rfl
          exact List.mem_cons_self _ _
        | inr k =>
          exfalso
          rw [dedupKey_of_truthy ht, hd] at hkey
          exact Sum.noConfusion hkey
    · rw [if_neg ht]
      have hf : jsTruthyOptS a.detailUrl = false := by
        revert ht; cases jsTruthyOptS a.detailUrl <;> simp
      by_cases hm : (jsTrim (lowerStr a.title), jsNumOr0 a.priceRaw) ∈ st
      · rw [if_pos hm]; exact ih su st
      · rw [if_neg hm]
        refine List.Pairwise.cons ?_ (ih su _)
        intro b hb hkey
        apply not_keySeen_of_mem_dedupGo hb
        cases hd : dedupKey b with
        | inl v =>
          exfalso
          rw [dedupKey_of_falsy hf, hd] at hkey
          exact Sum.noConfusion hkey
        | inr k =>
          simp only [keySeen, hd]
          have : Sum.inr (α := String) (β := String × JsNum)
              (jsTrim (lowerStr a.title), jsNumOr0 a.priceRaw) = Sum.inr k := by
            rw [← hd, ← hkey, dedupKey_of_falsy hf]
          rcases Sum.inr.inj this with rfl
          exact List.mem_cons_self _ _

theorem first_mem_dedupGo :
    ∀ (l : List Yacht) (su : List String) (st : List (String × JsNum)) (y z : Yacht),
      y ∈ l → ¬ keySeen su st y →
      l.find? (fun w => decide (dedupKey w = dedupKey y)) = some z →
      z ∈ dedupGo l su st := by
  intro l
  induction l with
  | nil => intro su st y z hy _ _; simp at hy
  | cons a rest ih =>
    intro su st y z hy hns hf
    by_cases hk : dedupKey a = dedupKey y
    · have hfa : List.find? (fun w => decide (dedupKey w = dedupKey y)) (a :: rest) = some a :=
        List.find?_cons_of_pos _ (by simpa using hk)
      rw [hfa] at hf
      rcases Option.some.inj hf with rfl
      have hnsa : ¬ keySeen su st a := by
        intro hcontra
        apply hns
        unfold keySeen at hcontra ⊢
        rw [← hk]
        exact hcontra
      unfold dedupGo
      by_cases ht : jsTruthyOptS a.detailUrl = true
      · rw [if_pos ht]
        have hm : ¬ (a.detailUrl.getD "" ∈ su) := by
          intro hmem
          apply hnsa
          simp only [keySeen, dedupKey_of_truthy ht]
          exact hmem
        rw [if_neg hm]
        exact List.mem_cons_self _ _
      · rw [if_neg ht]
        have hf2 : jsTruthyOptS a.detailUrl = false := by
          revert ht; cases jsTruthyOptS a.detailUrl <;> simp
        have hm : ¬ ((jsTrim (lowerStr a.title), jsNumOr0 a.priceRaw) ∈ st) := by
          intro hmem
          apply hnsa
          simp only [keySeen, dedupKey_of_falsy hf2]
          exact hmem
        rw [if_neg hm]
        exact List.mem_cons_self _ _
    · have hne : ¬ ((fun w => decide (dedupKey w = dedupKey y)) a = true) := by simpa using hk
      have hf' : List.find? (fun w => decide (dedupKey w = dedupKey y)) rest = some z :=
        (List.find?_cons_of_neg rest hne).symm.trans hf
      have hyr : y ∈ rest := by
        rcases List.mem_cons.mp hy with h1 | h2
        · exact absurd (by rw [h1] : dedupKey a = dedupKey y) hk
        · exact h2
      unfold dedupGo
      by_cases ht : jsTruthyOptS a.detailUrl = true
      · rw [if_pos ht]
        by_cases hm : a.detailUrl.getD "" ∈ su
        · rw [if_pos hm]; exact ih su st y z hyr hns hf'
        · rw [if_neg hm]
          refine List.mem_cons_of_mem a (ih _ st y z hyr ?_ hf')
          intro hcontra
          cases hd : dedupKey y with
          | inl v =>
            simp only [keySeen, hd] at hcontra
            rcases List.mem_cons.mp hcontra with h1 | h2
            · apply hk
              rw [dedupKey_of_truthy ht, hd, h1]
            · apply hns; simp only [keySeen, hd]; exact h2
          | inr k2 =>
            simp only [keySeen, hd] at hcontra
            apply hns; simp only [keySeen, hd]; exact hcontra
      · rw [if_neg ht]
        have hf2 : jsTruthyOptS a.detailUrl = false := by
          revert ht; cases jsTruthyOptS a.detailUrl <;> simp
        by_cases hm : (jsTrim (lowerStr a.title), jsNumOr0 a.priceRaw) ∈ st
        · rw [if_pos hm]; exact ih su st y z hyr hns hf'
        · rw [if_neg hm]
          refine List.mem_cons_of_mem a (ih su _ y z hyr ?_ hf')
          intro hcontra
          cases hd : dedupKey y with
          | inl v =>
            simp only [keySeen, hd] at hcontra
            apply hns; simp only [keySeen, hd]; exact hcontra
          | inr k2 =>
            simp only [keySeen, hd] at hcontra
            rcases List.mem_cons.mp hcontra with h1 | h2
            · apply hk
              rw [dedupKey_of_falsy hf2, hd, h1]
            · apply hns; simp only [keySeen, hd]; exact h2

theorem pairwise_key_eq {l : List Yacht}
    (hp : l.Pairwise (fun a b => dedupKey a ≠ dedupKey b))
    {w z : Yacht} (hw : w ∈ l) (hz : z ∈ l) (hk : dedupKey w = dedupKey z) : w = z := by
  induction l with
  | nil => simp at hw
  | cons a rest ih =>
    rcases List.pairwise_cons.mp hp with ⟨ha, hrest⟩
    rcases List.mem_cons.mp hw with hw1 | hw2
    · rcases List.mem_cons.mp hz with hz1 | hz2
      · rw [hw1, hz1]
      · exfalso
        apply ha z hz2
        rw [← hw1]
        exact hk
    · rcases List.mem_cons.mp hz with hz1 | hz2
      · exfalso
        apply ha w hw2
        rw [hz1] at hk
        exact hk.symm
      · exact ih hrest hw2 hz2

theorem extractSpecs_images (cy : Nat) (t : String) (y : Yacht) :
    (extractSpecs cy t y).images = y.images := by
  unfold extractSpecs
  repeat' split
  all_goals rfl

theorem mem_imgTagImages {api : UrlApi} {card : Card} {baseUrl u : String}
    (h : u ∈ imgTagImages api card baseUrl) :
    ∃ src, resolveUrl api src baseUrl = some u := by
  unfold imgTagImages jsCompact at h
  rcases List.mem_filterMap.mp h with ⟨o, ho, hval⟩
  rcases List.mem_map.mp ho with ⟨im, _, rfl⟩
  refine ⟨some (jsOrS (jsOrS im.src im.dataSrc) im.dataLazySrc), ?_⟩
  rcases hr : resolveUrl api (some (jsOrS (jsOrS im.src im.dataSrc) im.dataLazySrc)) baseUrl with _ | s
  · rw [hr] at hval
    simp at hval
  · rw [hr] at hval
    by_cases hs : s = ""
    · subst hs
      simp at hval
    · simp only [hs, if_false] at hval
      have hsu : s = u := Option.some.inj hval
      rw [← hsu]

theorem mem_bgImages {api : UrlApi} :
    ∀ (styles : List String) {baseUrl : String} {acc : List String} {u : String},
      u ∈ bgImages api styles baseUrl acc →
      u ∈ acc ∨ ∃ src, resolveUrl api src baseUrl = some u := by
  intro styles
  induction styles with
  | nil =>
    intro baseUrl acc u h
    exact Or.inl (by simpa [bgImages] using h)
  | cons st rest ih =>
    intro baseUrl acc u h
    simp only [bgImages] at h
    rcases hcap : matchCssUrl st.data with _ | cap <;> rw [hcap] at h <;> dsimp only at h
    · exact ih h
    · by_cases hlen : acc.length < 3
      · rw [if_pos hlen] at h
        rcases hr : resolveUrl api (some (String.mk cap)) baseUrl with _ | v <;> rw [hr] at h <;>
          dsimp only at h
        · exact ih h
        · by_cases hv : v = ""
          · rw [if_pos hv] at h
            exact ih h
          · rw [if_neg hv] at h
            by_cases hp : strContains v ("placeholder") = true
            · rw [if_pos hp] at h
              exact ih h
            · rw [if_neg hp] at h
              rcases ih h with hacc | hex
              · rcases List.mem_append.mp hacc with h1 | h2
                · exact Or.inl h1
                · rcases List.mem_singleton.mp h2 with rfl
                  exact Or.inr ⟨some (String.mk cap), hr⟩
              · exact Or.inr hex
      · rw [if_neg hlen] at h
        exact ih h

theorem genericCardYacht_images {api : UrlApi} {cy now : Nat} {card : Card} {baseUrl : String}
    {index : Nat} {u : String}
    (h : u ∈ (genericCardYacht api cy now card baseUrl index).images) :
    ∃ src, resolveUrl api src baseUrl = some u := by
  simp only [genericCardYacht, extractSpecs_images] at h
  split at h <;> dsimp only at h <;> split at h
  all_goals first
    | exact mem_imgTagImages h
    | exact (mem_bgImages _ h).resolve_left (by simp)

/- ===================== claim theorems ===================== -/

/-- Claim C5 counterexample: a candidate card whose text is inside the
plausible window and yields a valid price but no title is discarded by
`extractFromGenericCard` (the claim states it is kept). -/
theorem c5_valid_price_no_title_dropped :
    (extractPrice (cardPriceOnly.text)).raw = some (JsNum.fromNat 25000)
      ∧ 20 ≤ cardPriceOnly.text.length ∧ cardPriceOnly.text.length ≤ 5000
      ∧ extractFromGenericCard api0 2026 3 cardPriceOnly ("http://b/") 0 = none := by
  refine ⟨by decide, by decide, by decide, by decide⟩

/-- Claim C5 (amended): in the generic heuristic fallback, a candidate card
is kept only if it yields a title; a candidate with a valid price but no
title is discarded (the source comment reads "Only need title to be
valid").  Every record returned by `extractFromGenericCard` has a
nonempty title. -/
theorem c5_kept_only_with_title (api : UrlApi) (cy now : Nat) (card : Card) (baseUrl : String)
    (index : Nat) (y : Yacht)
    (h : extractFromGenericCard api cy now card baseUrl index = some y) : y.title ≠ "" := by
  unfold extractFromGenericCard at h
  split at h
  · exact Option.noConfusion h
  · split at h
    · exact Option.noConfusion h
    · rename_i hne
      rcases Option.some.inj h with rfl
      exact hne

/-- Witness for the amended claim C5 at a concrete card with a heading. -/
theorem c5_kept_only_with_title_witness :
    ∃ y, extractFromGenericCard api0 2026 3 cardWithTitle ("http://b/") 0 = some y
      ∧ y.title ≠ "" := by
  rcases hq : extractFromGenericCard api0 2026 3 cardWithTitle ("http://b/") 0 with _ | y
  · exact absurd hq (by decide)
  · exact ⟨y, rfl, c5_kept_only_with_title api0 2026 3 cardWithTitle ("http://b/") 0 y hq⟩

/-- Claim C1: for input text containing the European-grouped price
`€1.234.567,00` the price parser is claimed to return `priceRaw = 1234567`
with currency EUR, the cents ignored or parsed as cents and the amount not
misread at a different magnitude.  The embedded `extractPrice` returns
`123456700` with currency EUR: the comma is stripped like a thousands
separator, gluing the cents digits onto the integer part before the
thousands dots are removed, so the amount is misread by a factor of 100,
against the source's own comment that this branch handles the format
`1.234.567,00`. -/
theorem c1_extractPrice_euro_grouped_misparse :
    (extractPrice ("€1.234.567,00")).raw = some (JsNum.fromNat 123456700)
      ∧ (extractPrice ("€1.234.567,00")).currency = some Currency.EUR
      ∧ (extractPrice ("€1.234.567,00")).raw ≠ some (JsNum.fromNat 1234567) := by
  refine ⟨by decide, by decide, by decide⟩

/-- Claim C2: for every document and adapter list, the dispatch step selects
the first adapter in registration order whose `detect` returns true and
whose `parse` returns at least one record; an adapter that detects but
parses zero records does not stop the dispatch.  Stated as: the embedded
dispatch loop, started with the empty running list as in the orchestrator,
computes exactly the specification-side `firstDetectingParse`. -/
theorem c2_dispatch_first_detecting_nonempty {α : Type} (doc : α)
    (adapters : List (SiteAdapter α)) :
    dispatchLoop doc adapters [] = firstDetectingParse doc adapters := by
  induction adapters with
  | nil => rfl
  | cons a rest ih =>
    by_cases hd : a.detect doc = true
    · cases hpl : a.parse doc with
      | nil =>
        have h1 : dispatchLoop doc (a :: rest) [] = dispatchLoop doc rest [] := by
          simp only [dispatchLoop]
          rw [if_pos hd, hpl]
          simp
        have h2 : firstDetectingParse doc (a :: rest) = firstDetectingParse doc rest := by
          unfold firstDetectingParse
          rw [List.find?_cons_of_neg _ (by simp [hd, hpl])]
        rw [h1, h2, ih]
      | cons b bs =>
        have h1 : dispatchLoop doc (a :: rest) [] = a.parse doc := by
          simp only [dispatchLoop]
          rw [if_pos hd, hpl]
          simp
        have h2 : firstDetectingParse doc (a :: rest) = a.parse doc := by
          unfold firstDetectingParse
          rw [List.find?_cons_of_pos _ (by simp [hd, hpl])]
        rw [h1, h2]
    · have h1 : dispatchLoop doc (a :: rest) [] = dispatchLoop doc rest [] := by
        simp only [dispatchLoop]
        rw [if_neg hd]
      have h2 : firstDetectingParse doc (a :: rest) = firstDetectingParse doc rest := by
        unfold firstDetectingParse
        rw [List.find?_cons_of_neg _ (by simp [hd])]
      rw [h1, h2, ih]

/-- Claim C3: for every input and source address, no record with an empty
title and a null-or-zero `priceRaw` appears in the orchestrator's output;
the filtering step removes every such record and deduplication only ever
drops records. -/
theorem c3_output_has_title_or_price {α : Type} (doc : α) (valid : Bool) (reason : String)
    (structured : List Yacht) (adapters : List (SiteAdapter α)) (generic : List Yacht)
    (sourceUrl : String) (y : Yacht)
    (hmem : y ∈ (parseYachtListings doc valid reason structured adapters generic sourceUrl).1) :
    ¬ (y.title = "" ∧ (y.priceRaw = none ∨ y.priceRaw = some (JsNum.fromNat 0))) := by
  rintro ⟨ht, hp⟩
  unfold parseYachtListings at hmem
  by_cases hv : valid = false
  · rw [if_pos hv] at hmem
    simp at hmem
  · rw [if_neg hv] at hmem
    have h1 := mem_of_mem_dedupGo hmem
    have h2 := (List.mem_filter.mp h1).2
    unfold acceptYacht at h2
    split at h2
    · exact Bool.noConfusion h2
    · split at h2
      · exact Bool.noConfusion h2
      · rename_i hcond
        apply hcond
        refine ⟨ht, ?_⟩
        rcases hp with hp1 | hp2
        · rw [hp1]; rfl
        · rw [hp2]; rfl

/-- Witness for claim C3 at a concrete run whose generic strategy found one
record. -/
theorem c3_output_has_title_or_price_witness :
    ∃ y, y ∈ genOut
      ∧ ¬ (y.title = "" ∧ (y.priceRaw = none ∨ y.priceRaw = some (JsNum.fromNat 0))) := by
  rcases hq : genOut with _ | ⟨y, rest⟩
  · exact absurd hq (by decide)
  · have hy : y ∈ genOut := by rw [hq]; exact List.mem_cons_self y rest
    exact ⟨y, List.mem_cons_self y rest,
      c3_output_has_title_or_price () true "" [] ([] : List (SiteAdapter Unit)) [genYacht]
        ("http://b/") y hy⟩

/-- Claim C4 counterexample: a record with every weighted field present and
a bonus provenance scores 110, outside the claimed 0-100 range — the bonus
is added to the numerator while the denominator stays 100. -/
theorem c4_confidence_110_counterexample :
    calculateConfidence confFullYacht = 110
      ∧ ¬ (calculateConfidence confFullYacht ≤ 100) := by
  refine ⟨by decide, by decide⟩

/-- Claim C4 (amended): the recomputed overall confidence is an integer in
the range 0 to 110; records receiving the +10 provenance bonus can exceed
100 (without the bonus the maximum is 100). -/
theorem c4_confidence_bounds_amended (y : Yacht) :
    0 ≤ calculateConfidence y ∧ calculateConfidence y ≤ 110 := by
  rw [calculateConfidence_eq_score]
  exact confScore_bounds y

/-- Claim C6: deduplication keeps exactly one record per key, the first
encountered: the first list element sharing the key of any given record
(truthy `detailUrl`, or else the lower-cased trimmed title with
`priceRaw || 0`) is in the output, and it is the only output record with
that key. -/
theorem c6_dedup_first_per_key (ys : List Yacht) (y z : Yacht)
    (hy : y ∈ ys)
    (hz : ys.find? (fun w => decide (dedupKey w = dedupKey y)) = some z) :
    z ∈ deduplicateYachts ys
      ∧ ∀ w ∈ deduplicateYachts ys, dedupKey w = dedupKey y → w = z := by
  have hns : ¬ keySeen [] [] y := by
    intro hk
    cases hd : dedupKey y with
    | inl v => simp only [keySeen, hd] at hk; simp at hk
    | inr k => simp only [keySeen, hd] at hk; simp at hk
  have h1 : z ∈ deduplicateYachts ys := first_mem_dedupGo ys [] [] y z hy hns hz
  have hkey : dedupKey z = dedupKey y := by simpa using List.find?_some hz
  refine ⟨h1, ?_⟩
  intro w hw hkw
  exact pairwise_key_eq (pairwise_dedupGo ys [] []) hw h1 (hkw.trans hkey.symm)

/-- Witness for claim C6 on a concrete pair sharing one detail address. -/
theorem c6_dedup_first_per_key_witness :
    dupA ∈ deduplicateYachts dupList
      ∧ ∀ w ∈ deduplicateYachts dupList, dedupKey w = dedupKey dupB → w = dupA :=
  c6_dedup_first_per_key dupList dupB dupA (by decide) (by decide)

/-- Claim C7 counterexample: a linked-data product whose image member is a
data-embedded address yields an orchestrator output record whose images
contain that `data:` address — the structured-data path copies image
addresses verbatim, bypassing `isValidImage` and `resolveUrl`. -/
theorem c7_jsonld_data_address_in_output :
    ∃ y ∈ dataImgOut, ∃ img ∈ y.images, strStarts img ("data:") = true := by
  decide

/-- Claim C7 (amended): image addresses collected by the generic heuristic
card extractor all pass through `resolveUrl`, which rejects every
data-embedded address; the structured-data (JSON-LD) path copies image
addresses verbatim without this guard, so its records can carry `data:`
addresses into the output. -/
theorem c7_resolveurl_guard_amended :
    (∀ (api : UrlApi) (u baseUrl : String), strStarts u ("data:") = true →
        resolveUrl api (some u) baseUrl = none)
      ∧ (∀ (api : UrlApi) (cy now : Nat) (card : Card) (baseUrl : String) (index : Nat)
          (y : Yacht), extractFromGenericCard api cy now card baseUrl index = some y →
          ∀ u ∈ y.images, ∃ src, resolveUrl api src baseUrl = some u) := by
  constructor
  · intro api u baseUrl hd
    unfold resolveUrl
    dsimp only
    by_cases hne : u = ""
    · rw [if_pos hne]
    · rw [if_neg hne, if_pos hd]
  · intro api cy now card baseUrl index y h u hu
    have hy : y = genericCardYacht api cy now card baseUrl index := by
      unfold extractFromGenericCard at h
      split at h
      · exact Option.noConfusion h
      · split at h
        · exact Option.noConfusion h
        · exact (Option.some.inj h).symm
    rw [hy] at hu
    exact genericCardYacht_images hu

/-- Witness for the amended claim C7: a data-embedded source is rejected,
and the image of a concrete generic-card record is a `resolveUrl` output. -/
theorem c7_resolveurl_guard_amended_witness :
    resolveUrl api0 (some ("data:image/gif;base64,R0")) ("http://b/") = none
      ∧ ∃ src, resolveUrl api0 src ("http://b/") = some ("http://x/a.jpg") := by
  constructor
  · exact c7_resolveurl_guard_amended.1 api0 ("data:image/gif;base64,R0") ("http://b/") (by decide)
  · have hq : extractFromGenericCard api0 2026 3 cardWithTitle ("http://b/") 0
        = some cardWithTitleRec := by decide
    exact c7_resolveurl_guard_amended.2 api0 2026 3 cardWithTitle ("http://b/") 0 cardWithTitleRec
      hq ("http://x/a.jpg") (by decide)

/-- Claim C8: record ids are claimed unique within a single parse run.  The
structured-data strategy calls the record factory with no index argument,
so any two of its records built at the same clock reading receive the same
id `yacht-<now>-0`: the embedded `parseJsonLdProduct` gives every product
the same id for a fixed clock value, whatever the products are. -/
theorem c8_structured_records_share_id (now : Nat) (p q : JsonLdProduct) :
    (parseJsonLdProduct now p).id = (parseJsonLdProduct now q).id := by
  have h : ∀ r : JsonLdProduct, (parseJsonLdProduct now r).id = (createEmptyYacht now 0).id := by
    intro r
    simp only [parseJsonLdProduct]
    repeat' split
    all_goals rfl
  rw [h p, h q]

/-- Claim C9 counterexample: with the current year 2026, text whose first
four-digit match is 2027 (current year plus one) is accepted by the spec
extractor, not rejected: the source's range check is
`year <= currentYear + 1`, inclusive. -/
theorem c9_year_current_plus_one_accepted :
    (extractSpecs 2026 ("2027") (createEmptyYacht 0 0)).year = "2027"
      ∧ (extractSpecs 2026 ("2027") (createEmptyYacht 0 0)).year ≠ "" := by
  refine ⟨by decide, by decide⟩

/-- Claim C9 (amended): the spec extractor rejects the year 1949, accepts
1950, accepts the year equal to the current year plus one, and rejects the
current year plus two (evaluated at the current year 2026). -/
theorem c9_year_boundaries_amended :
    (extractSpecs 2026 ("1949") (createEmptyYacht 0 0)).year = ""
      ∧ (extractSpecs 2026 ("1950") (createEmptyYacht 0 0)).year = "1950"
      ∧ (extractSpecs 2026 ("2027") (createEmptyYacht 0 0)).year = "2027"
      ∧ (extractSpecs 2026 ("2028") (createEmptyYacht 0 0)).year = "" := by
  refine ⟨by decide, by decide, by decide, by decide⟩

theorem starts_http_not_data {u : String} (h : strStarts u ("http") = true) :
    strStarts u ("data:") = false := by
  unfold strStarts at h ⊢
  rw [show ("http").data = ['h', 't', 't', 'p'] from rfl] at h
  rw [show ("data:").data = ['d', 'a', 't', 'a', ':'] from rfl]
  rcases hu : u.data with _ | ⟨c, rest⟩
  · rw [hu] at h
    simp [startsList] at h
  · rw [hu] at h
    simp only [startsList, Bool.and_eq_true] at h
    obtain ⟨hc, _⟩ := h
    have hch : ('h' : Char) = c := beq_iff_eq.mp hc
    rw [← hch]
    simp [startsList]

/-- Claim C10: `resolveUrl` is total and never throws: it returns `null`
for an absent (or falsy) address, `null` for a `data:` address, the
address unchanged when it starts with `http` (even when the base address
is malformed, since that branch precedes base parsing), `null` when the
base address cannot be parsed, and `null` (instead of propagating the
exception) when a relative address cannot be resolved against the base. -/
theorem c10_resolveUrl_total :
    (∀ (api : UrlApi) (baseUrl : String), resolveUrl api none baseUrl = none)
      ∧ (∀ (api : UrlApi) (u baseUrl : String), strStarts u ("data:") = true →
          resolveUrl api (some u) baseUrl = none)
      ∧ (∀ (api : UrlApi) (u baseUrl : String), strStarts u ("http") = true →
          resolveUrl api (some u) baseUrl = some u)
      ∧ (∀ (api : UrlApi) (u baseUrl : String),
          strStarts u ("http") = false → api.parse baseUrl = none →
          resolveUrl api (some u) baseUrl = none)
      ∧ (∀ (api : UrlApi) (u baseUrl : String) (base : UrlParts),
          api.parse baseUrl = some base → strStarts u ("http") = false →
          strStarts u ("//") = false → strStarts u ("/") = false →
          api.resolve u baseUrl = none →
          resolveUrl api (some u) baseUrl = none) := by
  refine ⟨?_, ?_, ?_, ?_, ?_⟩
  · intro api baseUrl
    rfl
  · intro api u baseUrl hd
    unfold resolveUrl
    dsimp only
    by_cases hne : u = ""
    · rw [if_pos hne]
    · rw [if_neg hne, if_pos hd]
  · intro api u baseUrl hh
    unfold resolveUrl
    dsimp only
    have hne : ¬ (u = "") := by
      intro he
      rw [he] at hh
      exact absurd hh (by decide)
    rw [if_neg hne, if_neg (by simp [starts_http_not_data hh]), if_pos hh]
  · intro api u baseUrl hh hparse
    unfold resolveUrl
    dsimp only
    by_cases hne : u = ""
    · rw [if_pos hne]
    · rw [if_neg hne]
      by_cases hdata : strStarts u ("data:") = true
      · rw [if_pos hdata]
      · rw [if_neg hdata, if_neg (by simp [hh]), hparse]
  · intro api u baseUrl base hparse hh hss hs hres
    unfold resolveUrl
    dsimp only
    by_cases hne : u = ""
    · rw [if_pos hne]
    · rw [if_neg hne]
      by_cases hdata : strStarts u ("data:") = true
      · rw [if_pos hdata]
      · rw [if_neg hdata, if_neg (by simp [hh]), hparse]
        dsimp only
        rw [if_neg (by simp [hss]), if_neg (by simp [hs]), hres]

/-- Witness for claim C10, exercising each branch at concrete inputs. -/
theorem c10_resolveUrl_total_witness :
    resolveUrl api0 none ("http://b/") = none
      ∧ resolveUrl api0 (some ("data:x")) ("http://b/") = none
      ∧ resolveUrl api0 (some ("http://u.example/p")) ("") = some ("http://u.example/p")
      ∧ resolveUrl api0 (some ("img/a.png")) ("::bad::") = none
      ∧ resolveUrl apiHttp (some ("img/a.png")) ("http://example.com/p") = none := by
  refine ⟨c10_resolveUrl_total.1 api0 ("http://b/"),
    c10_resolveUrl_total.2.1 api0 ("data:x") ("http://b/") (by decide),
    c10_resolveUrl_total.2.2.1 api0 ("http://u.example/p") ("") (by decide),
    c10_resolveUrl_total.2.2.2.1 api0 ("img/a.png") ("::bad::") (by decide) rfl,
    c10_resolveUrl_total.2.2.2.2 apiHttp ("img/a.png") ("http://example.com/p")
      ⟨"http:", "http://example.com"⟩ rfl (by decide) (by decide) (by decide) rfl⟩
